import Mathlib

/-!
Verification of the scope/delay-queue subsystem of `GstEngine`
(src/src/engines/gstengine.cpp).

The embedding models:
 - a GStreamer buffer (`GstBuf`) by its timestamp, duration, channel count
   (from its caps) and its int16 sample data (`GST_BUFFER_SIZE / sizeof(int16_t)`
   samples);
 - the engine state (`EngineState`) by the delay queue `delayq_`, the build
   cursor `current_sample_`, the build buffer `current_scope_`, the ready
   buffer `m_scope`, the pipeline (modelled as `Option Nat`: `some pos` means a
   pipeline exists and its `position()` currently reports `pos`), and the
   `fadeout_enabled_` setting;
 - `PruneScope`, `UpdateScope`, `scope`, `ClearScopeQ`, `seek` and `stop`
   as state transformers.  `UpdateScope` returns `Option EngineState`:
   `none` models the C++ integer divisions `sz / channels`, `dur / frames`
   and `... / (dur / frames)` executing with a zero divisor (SIGFPE / crash).

`SCOPESIZE` is a design constant of the engine (defined outside this
translation unit), so it is carried as an explicit parameter `SS`.
The sample buffers are modelled as total functions `Nat → Int` so that a
write outside `[0, SS)` would be observable in the model.
-/

/-- One queued GStreamer buffer: timestamp, duration, channel count from its
caps, and its interleaved int16 samples. -/
structure GstBuf where
  stime : Nat
  dur : Nat
  channels : Nat
  data : List Int
deriving DecidableEq

/-- `GST_BUFFER_TIMESTAMP + GST_BUFFER_DURATION`. -/
def GstBuf.etime (b : GstBuf) : Nat := b.stime + b.dur

/-- The scope-relevant state of a `GstEngine`. -/
structure EngineState where
  delayq_ : List GstBuf
  current_sample_ : Nat
  current_scope_ : Nat → Int
  m_scope : Nat → Int
  current_pipeline_ : Option Nat
  fadeout_enabled_ : Bool

/-- The head-popping loop of `GstEngine::PruneScope`: while a head buffer
exists and `pos > stime + dur`, pop and release it. -/
def pruneQ (pos : Nat) : List GstBuf → List GstBuf
  | [] => []
  | b :: rest => if b.stime + b.dur < pos then pruneQ pos rest else b :: rest

/-- `GstEngine::PruneScope`: with no current pipeline it returns 0 and does
nothing; otherwise it reads the device position, prunes fully-elapsed head
buffers, and returns the position. -/
def PruneScope (s : EngineState) : EngineState × Nat :=
  match s.current_pipeline_ with
  | none => (s, 0)
  | some pos => ({ s with delayq_ := pruneQ pos s.delayq_ }, pos)

/-- `GstEngine::ClearScopeQ`: pop and release every queued buffer. -/
def ClearScopeQ (s : EngineState) : EngineState :=
  { s with delayq_ := [] }

/-- The inner `for (j = 0; j < channels && current_sample_ < SCOPESIZE; j++)
current_scope_[current_sample_++] = data[i + j];` loop, recursing on the
number of channels left to copy.  `base` is the frame index `i`. -/
def copyFrameAux (SS : Nat) (d : List Int) (base : Nat) :
    Nat → Nat → Nat → (Nat → Int) → Nat × (Nat → Int)
  | 0, _, cur, sc => (cur, sc)
  | k + 1, j, cur, sc =>
    if cur < SS then
      copyFrameAux SS d base k (j + 1) (cur + 1)
        (fun n => if n = cur then d.getD (base + j) 0 else sc n)
    else (cur, sc)

/-- Copy one interleaved frame starting at sample index `i`. -/
def copyFrame (SS channels : Nat) (d : List Int) (i cur : Nat) (sc : Nat → Int) :
    Nat × (Nat → Int) :=
  copyFrameAux SS d i channels 0 cur sc

/-- The `while (buf && current_sample_ < SCOPESIZE && i < sz)` loop of
`GstEngine::UpdateScope` (lines 266-286): copy a frame, advance `i` by
`channels`, and when `i >= sz - 1` pop the head buffer and continue from
offset 0 of the new head.  `channels` is fixed for the whole loop, exactly as
in the source (it is not re-read from the new buffer's caps).  Returns the
remaining queue, the cursor and the build buffer. -/
def extractLoop (SS channels : Nat) :
    Nat → List GstBuf → Nat → Nat → (Nat → Int) → List GstBuf × Nat × (Nat → Int)
  | 0, q, _, cur, sc => (q, cur, sc)
  | _ + 1, [], _, cur, sc => ([], cur, sc)
  | fuel + 1, buf :: rest, i, cur, sc =>
    if cur < SS ∧ i < buf.data.length then
      if buf.data.length - 1 ≤ i + channels then
        extractLoop SS channels fuel rest 0
          (copyFrame SS channels buf.data i cur sc).1
          (copyFrame SS channels buf.data i cur sc).2
      else
        extractLoop SS channels fuel (buf :: rest) (i + channels)
          (copyFrame SS channels buf.data i cur sc).1
          (copyFrame SS channels buf.data i cur sc).2
    else (buf :: rest, cur, sc)

/-- The starting sample offset computed at line 254 of the source:
`int off = channels * (pos - stime) / (dur / frames);`.  In C++ this parses
as `(channels * (pos - stime)) / (dur / frames)`.  `spf` is `dur / frames`. -/
def scopeOffset (channels pos stime spf : Nat) : Nat :=
  channels * (pos - stime) / spf

/-- The offset formula as the spec words it: "offset = channel_count *
floor((device_position - start_time) / samples_per_frame_interval)" — the
frame index is floored first, then multiplied by the channel count. -/
def scopeOffsetSpec (channels pos stime spf : Nat) : Nat :=
  channels * ((pos - stime) / spf)

/-- Store the result of the extraction loop (remaining queue, cursor, build
buffer) back into the engine state. -/
def applyExtract (s1 : EngineState) (r : List GstBuf × Nat × (Nat → Int)) :
    EngineState :=
  { s1 with
    delayq_ := r.1
    current_sample_ := r.2.1
    current_scope_ := r.2.2 }

/-- The body of `GstEngine::UpdateScope` after pruning, processing the pruned
queue: `pos` is the value returned by `PruneScope` and `s1` the pruned state
(whose `delayq_` is the list argument).  `none` models a C++ division by zero
(crash): `sz / channels` with `channels = 0`, `dur / frames` with
`frames = 0`, or `... / (dur / frames)` with `dur / frames = 0`. -/
def UpdateScopeGo (SS pos : Nat) (s1 : EngineState) : List GstBuf → Option EngineState
  | [] => some s1
  | buf :: rest =>
    if 2 < buf.channels then some s1
    else if pos ≤ buf.stime ∨ buf.stime + buf.dur ≤ pos then some s1
    else if buf.channels = 0 then none
    else if buf.data.length / buf.channels = 0 then none
    else if buf.dur / (buf.data.length / buf.channels) = 0 then none
    else if buf.data.length ≤
        scopeOffset buf.channels pos buf.stime
          (buf.dur / (buf.data.length / buf.channels)) then some s1
    else
      some (applyExtract s1 (extractLoop SS buf.channels (SS + 1) (buf :: rest)
        (scopeOffset buf.channels pos buf.stime
          (buf.dur / (buf.data.length / buf.channels)))
        s1.current_sample_ s1.current_scope_))

/-- The body of `GstEngine::UpdateScope` after pruning. -/
def UpdateScopeAux (SS pos : Nat) (s1 : EngineState) : Option EngineState :=
  UpdateScopeGo SS pos s1 s1.delayq_

/-- `GstEngine::UpdateScope`: prune, then extract from the head buffer. -/
def UpdateScope (SS : Nat) (s : EngineState) : Option EngineState :=
  UpdateScopeAux SS (PruneScope s).2 (PruneScope s).1

/-- `GstEngine::scope`: run `UpdateScope`, and when the build cursor has
reached `SCOPESIZE`, copy the build buffer wholesale into the ready buffer
`m_scope` and reset the cursor.  The `m_scope` field of the result is the
buffer returned to the caller. -/
def scope (SS : Nat) (s : EngineState) : Option EngineState :=
  (UpdateScope SS s).map fun t =>
    if SS ≤ t.current_sample_ then
      { t with
        m_scope := fun i => if i < SS then t.current_scope_ i else t.m_scope i,
        current_sample_ := 0 }
    else t

/-- `GstEngine::seek`: does nothing without a pipeline; clears the delay
queue only when the pipeline seek succeeds (`ok` models the return value of
`GstEnginePipeline::Seek`).  The build cursor is not touched. -/
def seek (ok : Bool) (s : EngineState) : EngineState :=
  match s.current_pipeline_ with
  | none => s
  | some _ => if ok then ClearScopeQ s else s

/-- `GstEngine::stop`: clears the delay queue only on the fadeout path
(`if (fadeout_enabled_) { ... ClearScopeQ(); ... }`), then resets the
current pipeline.  The build cursor is not touched. -/
def stop (s : EngineState) : EngineState :=
  let s1 := if s.fadeout_enabled_ then ClearScopeQ s else s
  { s1 with current_pipeline_ := none }

/-! ### Concrete states used by the counterexamples and witnesses -/

/-- The all-zero sample buffer. -/
def zbuf : Nat → Int := fun _ => 0

/-- C1: a degenerate head chunk — positive duration but no sample data, so
`frame_count = 0`. -/
def bufC1 : GstBuf := ⟨0, 100, 2, []⟩

/-- C1: engine state with the degenerate chunk queued and the device playing
strictly inside it. -/
def sC1 : EngineState := ⟨[bufC1], 0, zbuf, zbuf, some 50, false⟩

/-- C2: the sample data 0,1,...,99 of the spec's chunk A. -/
def dataC2 : List Int := (List.range 100).map Int.ofNat

/-- C2: the spec's chunk A (`start=0, dur=100, channels=2, frames=50`). -/
def bufC2 : GstBuf := ⟨0, 100, 2, dataC2⟩

/-- C2: chunk A queued, device position 41. -/
def sC2 : EngineState := ⟨[bufC2], 0, zbuf, zbuf, some 41, false⟩

/-- C3: a mono chunk with two samples. -/
def bufC3a : GstBuf := ⟨0, 10, 1, [5, 6]⟩

/-- C3: the following mono chunk. -/
def bufC3b : GstBuf := ⟨10, 10, 1, [7, 8]⟩

/-- C3: both mono chunks queued, device position 1, empty build buffer. -/
def sC3 : EngineState := ⟨[bufC3a, bufC3b], 0, zbuf, zbuf, some 1, false⟩

/-- C4: a stereo head chunk with four samples. -/
def bufC4a : GstBuf := ⟨0, 20, 2, [1, 2, 3, 4]⟩

/-- C4: the following chunk with four channels. -/
def bufC4b : GstBuf := ⟨20, 20, 4, [9, 9, 9, 9, 9, 9, 9, 9]⟩

/-- C4: stereo chunk then 4-channel chunk, device position 1. -/
def sC4 : EngineState := ⟨[bufC4a, bufC4b], 0, zbuf, zbuf, some 1, false⟩

/-- C5: a later chunk whose end time 60 precedes the head chunk's end
time 100. -/
def cC5 : GstBuf := ⟨50, 10, 2, []⟩

/-- C5: queue whose head outlives the chunk behind it. -/
def qC5 : List GstBuf := [⟨0, 100, 2, []⟩, cC5]

/-- C8: a queued chunk. -/
def bufC8 : GstBuf := ⟨0, 10, 2, [1, 2]⟩

/-- C8: fadeout disabled, one chunk queued, build cursor at 3. -/
def sC8 : EngineState := ⟨[bufC8], 3, zbuf, zbuf, some 5, false⟩

/-- C9: a stereo chunk with six samples spanning 100 time units. -/
def bufC9 : GstBuf := ⟨0, 100, 2, [10, 11, 12, 13, 14, 15]⟩

/-- C9: a build buffer holding one leftover sample at index 0. -/
def scC9 : Nat → Int := fun n => if n = 0 then 99 else 0

/-- C9: build cursor at 1 (partial fill), device position 1. -/
def sC9 : EngineState := ⟨[bufC9], 1, scC9, zbuf, some 1, false⟩

/-- C3 witness: a single mono chunk with two samples. -/
def cW3 : GstBuf := ⟨0, 10, 1, [5, 6]⟩

/-- C3 witness state. -/
def sW3 : EngineState := ⟨[cW3], 0, zbuf, zbuf, some 1, false⟩

/-- C4 witness: a 4-channel chunk at the head of the queue. -/
def cW4 : GstBuf := ⟨0, 100, 4, [1, 2]⟩

/-- C4 witness state. -/
def sW4 : EngineState := ⟨[cW4], 0, zbuf, zbuf, some 50, false⟩

/-- C5 witness: the second chunk of the sorted queue. -/
def cW5 : GstBuf := ⟨90, 20, 2, []⟩

/-- C5 witness: a queue with non-decreasing end times (100 then 110). -/
def qW5 : List GstBuf := [⟨0, 100, 2, []⟩, cW5]

/-- C6 witness state: empty queue, cursor 2, no pipeline. -/
def sW6 : EngineState := ⟨[], 2, zbuf, zbuf, none, true⟩

/-- C7 witness: a build buffer holding the constant 7. -/
def scW7 : Nat → Int := fun _ => 7

/-- C7 witness state: full build buffer (cursor 5 ≥ SCOPESIZE 4). -/
def sW7 : EngineState := ⟨[], 5, scW7, zbuf, none, false⟩

/-- C8 witness state: pipeline present and fadeout enabled. -/
def sW8 : EngineState := ⟨[⟨0, 10, 2, []⟩], 4, zbuf, zbuf, some 7, true⟩

/-- C9 witness: a build buffer holding the constant 3. -/
def scW9 : Nat → Int := fun _ => 3

/-- C9 witness state: empty queue, full build buffer. -/
def sW9 : EngineState := ⟨[], 5, scW9, zbuf, none, false⟩

/-- C9 witness: the state after the first `scope` call on `sW9`. -/
def uW9 : EngineState :=
  { sW9 with
    m_scope := fun i => if i < 4 then sW9.current_scope_ i else sW9.m_scope i,
    current_sample_ := 0 }

/-- C10 witness state: no pipeline, but a fully-elapsed chunk still queued. -/
def sW10 : EngineState := ⟨[⟨0, 10, 2, [1, 2]⟩], 2, zbuf, zbuf, none, false⟩

/-! ### Counterexample and code-bug theorems -/

/-- C1 (code bug): on a head chunk with `frame_count = 0` but positive
duration, with the device position strictly inside the chunk, `UpdateScope`
reaches the division `dur / frames` with `frames = 0`: the model returns
`none` (the C++ code divides by zero) instead of skipping the chunk. -/
theorem C1_degenerate_chunk_crash : UpdateScope 4 sC1 = none := rfl

/-- C2 counterexample: at device position 41 on the spec's chunk A the code's
offset is `(2 * 41) / 2 = 41` — odd, hence not frame-aligned — while the
claimed formula `2 * floor(41 / 2)` gives 40; extraction indeed copies
samples 41 and 42 of the chunk. -/
theorem C2_offset_not_frame_aligned :
    scopeOffset 2 41 0 2 = 41 ∧ scopeOffsetSpec 2 41 0 2 = 40
  ∧ ¬ 2 ∣ scopeOffset 2 41 0 2
  ∧ (UpdateScope 2 sC2).map
      (fun t => ((List.range 2).map t.current_scope_, t.current_sample_))
      = some ([41, 42], 2) := by decide

/-- C3 counterexample: extracting two 2-sample mono chunks from offset 0 into
an empty 4-slot build buffer copies only `[5, 7]` and pops both chunks: the
pop happens at `i ≥ sz - 1`, so sample 6 of the first chunk (and 8 of the
second) is never copied even though the buffer still had room. -/
theorem C3_pop_skips_last_sample :
    (UpdateScope 4 sC3).map
        (fun t => ((List.range 4).map t.current_scope_, t.current_sample_, t.delayq_))
      = some ([5, 7, 0, 0], 2, [])
  ∧ (6 : Int) ∈ bufC3a.data := by decide

/-- C4 counterexample: after the stereo head chunk is exhausted mid-call,
extraction continues into the next chunk without re-checking its channel
count: the 4-channel chunk's samples (the 9s) are written into the build
buffer. -/
theorem C4_refill_ignores_channel_guard :
    2 < bufC4b.channels ∧ sC4.delayq_ = [bufC4a, bufC4b]
  ∧ (UpdateScope 6 sC4).map
      (fun t => ((List.range 6).map t.current_scope_, t.delayq_))
      = some ([1, 2, 3, 4, 9, 9], [bufC4b]) := by decide

/-- C5 counterexample: `prune(80)` inspects only the head chunk (end time
100 ≥ 80) and stops, leaving a later chunk with end time 60 < 80 in the
queue. -/
theorem C5_prune_nonmonotonic_tail :
    pruneQ 80 qC5 = qC5 ∧ cC5 ∈ pruneQ 80 qC5 ∧ cC5.stime + cC5.dur < 80 := by
  decide

/-- C8 counterexample: with fadeout disabled, `stop` leaves the chunk queue
untouched, and neither `stop` nor a successful `seek` resets the build
cursor. -/
theorem C8_stop_without_fadeout_keeps_queue :
    (stop sC8).delayq_ = [bufC8] ∧ (stop sC8).current_sample_ = 3
  ∧ (seek true sC8).current_sample_ = 3 := by decide

/-- C9 counterexample: two consecutive `scope` calls with the device position
and the queue contents unchanged return different ready buffers: the first
call swaps `[99, 10]` in, the second re-copies the same chunk from offset 0
and swaps `[10, 11]` in. -/
theorem C9_scope_not_idempotent :
    (scope 2 sC9).map (fun u => ((List.range 2).map u.m_scope, u.delayq_))
      = some ([99, 10], [bufC9])
  ∧ ((scope 2 sC9).bind (scope 2)).map (fun v => (List.range 2).map v.m_scope)
      = some [10, 11] := by decide

/-! ### Helper lemmas -/

theorem PruneScope_none {s : EngineState} (h : s.current_pipeline_ = none) :
    PruneScope s = (s, 0) := by
  simp [PruneScope, h]

theorem PruneScope_some {s : EngineState} {pos : Nat}
    (h : s.current_pipeline_ = some pos) :
    PruneScope s = ({ s with delayq_ := pruneQ pos s.delayq_ }, pos) := by
  simp [PruneScope, h]

theorem PruneScope_fields (s : EngineState) :
    (PruneScope s).1.current_sample_ = s.current_sample_
  ∧ (PruneScope s).1.current_scope_ = s.current_scope_
  ∧ (PruneScope s).1.m_scope = s.m_scope := by
  cases h : s.current_pipeline_ <;> simp [PruneScope, h]

theorem copyFrameAux_cursor_le (SS : Nat) (d : List Int) (b : Nat) :
    ∀ k j cur sc, cur ≤ SS → (copyFrameAux SS d b k j cur sc).1 ≤ SS := by
  intro k
  induction k with
  | zero => intro j cur sc h; simpa [copyFrameAux] using h
  | succ k ih =>
    intro j cur sc h
    by_cases hc : cur < SS
    · simpa [copyFrameAux, hc] using ih (j + 1) (cur + 1) _ (by omega)
    · simpa [copyFrameAux, hc] using h

theorem copyFrameAux_frame (SS : Nat) (d : List Int) (b : Nat) :
    ∀ k j cur sc m, SS ≤ m → (copyFrameAux SS d b k j cur sc).2 m = sc m := by
  intro k
  induction k with
  | zero => intro j cur sc m _; simp [copyFrameAux]
  | succ k ih =>
    intro j cur sc m hm
    by_cases hc : cur < SS
    · rw [copyFrameAux, if_pos hc,
        ih (j + 1) (cur + 1) (fun n => if n = cur then d.getD (b + j) 0 else sc n) m hm]
      have hne : m ≠ cur := by omega
      simp [hne]
    · simp [copyFrameAux, hc]

theorem extractLoop_nil (SS ch fuel i cur : Nat) (sc : Nat → Int) :
    extractLoop SS ch fuel [] i cur sc = ([], cur, sc) := by
  cases fuel <;> rfl

theorem extractLoop_cursor_le (SS ch : Nat) :
    ∀ fuel q i cur sc, cur ≤ SS → (extractLoop SS ch fuel q i cur sc).2.1 ≤ SS := by
  intro fuel
  induction fuel with
  | zero => intro q i cur sc h; simpa [extractLoop] using h
  | succ fuel ih =>
    intro q i cur sc h
    cases q with
    | nil => simpa [extractLoop_nil] using h
    | cons buf rest =>
      by_cases hg : cur < SS ∧ i < buf.data.length
      · have hp : (copyFrame SS ch buf.data i cur sc).1 ≤ SS :=
          copyFrameAux_cursor_le SS buf.data i ch 0 cur sc (le_of_lt hg.1)
        by_cases hpop : buf.data.length - 1 ≤ i + ch
        · simpa [extractLoop, hg, hpop] using ih rest 0 _ _ hp
        · simpa [extractLoop, hg, hpop] using ih (buf :: rest) (i + ch) _ _ hp
      · simpa [extractLoop, hg] using h

theorem extractLoop_frame (SS ch : Nat) :
    ∀ fuel q i cur sc m, SS ≤ m → (extractLoop SS ch fuel q i cur sc).2.2 m = sc m := by
  intro fuel
  induction fuel with
  | zero => intro q i cur sc m _; simp [extractLoop]
  | succ fuel ih =>
    intro q i cur sc m hm
    cases q with
    | nil => simp [extractLoop_nil]
    | cons buf rest =>
      have hfr : (copyFrame SS ch buf.data i cur sc).2 m = sc m :=
        copyFrameAux_frame SS buf.data i ch 0 cur sc m hm
      by_cases hg : cur < SS ∧ i < buf.data.length
      · by_cases hpop : buf.data.length - 1 ≤ i + ch
        · rw [extractLoop, if_pos hg, if_pos hpop, ih rest 0 _ _ m hm, hfr]
        · rw [extractLoop, if_pos hg, if_neg hpop, ih (buf :: rest) (i + ch) _ _ m hm, hfr]
      · simp [extractLoop, hg]

theorem UpdateScopeGo_inv (SS pos : Nat) (s1 t : EngineState) (q : List GstBuf)
    (h : UpdateScopeGo SS pos s1 q = some t) :
    t.m_scope = s1.m_scope
  ∧ (∀ m, SS ≤ m → t.current_scope_ m = s1.current_scope_ m)
  ∧ (s1.current_sample_ ≤ SS → t.current_sample_ ≤ SS) := by
  cases q with
  | nil =>
    rw [UpdateScopeGo] at h
    cases h
    exact ⟨rfl, fun _ _ => rfl, id⟩
  | cons buf rest =>
    rw [UpdateScopeGo] at h
    split_ifs at h <;> (try cases h) <;>
      first
        | exact ⟨rfl, fun _ _ => rfl, id⟩
        | exact ⟨rfl,
            fun m hm => extractLoop_frame SS buf.channels (SS + 1) (buf :: rest) _
              s1.current_sample_ s1.current_scope_ m hm,
            fun hc => extractLoop_cursor_le SS buf.channels (SS + 1) (buf :: rest) _
              s1.current_sample_ s1.current_scope_ hc⟩

theorem UpdateScope_inv (SS : Nat) (s t : EngineState) (h : UpdateScope SS s = some t) :
    t.m_scope = s.m_scope
  ∧ (∀ m, SS ≤ m → t.current_scope_ m = s.current_scope_ m)
  ∧ (s.current_sample_ ≤ SS → t.current_sample_ ≤ SS) := by
  have h' : UpdateScopeGo SS (PruneScope s).2 (PruneScope s).1
      (PruneScope s).1.delayq_ = some t := h
  have hf := PruneScope_fields s
  have hinv := UpdateScopeGo_inv SS (PruneScope s).2 (PruneScope s).1 t _ h'
  refine ⟨hinv.1.trans hf.2.2, fun m hm => ?_, fun hc => ?_⟩
  · rw [hinv.2.1 m hm, hf.2.1]
  · exact hinv.2.2 (by rw [hf.1]; exact hc)

theorem UpdateScope_empty (SS : Nat) (x : EngineState) (hq : x.delayq_ = []) :
    UpdateScope SS x = some x := by
  have hid : ({ x with delayq_ := ([] : List GstBuf) }) = x := by
    cases x
    simp_all
  show UpdateScopeGo SS (PruneScope x).2 (PruneScope x).1
      (PruneScope x).1.delayq_ = some x
  cases hp : x.current_pipeline_ with
  | none => simp [PruneScope_none hp, hq, UpdateScopeGo]
  | some pos => simp [PruneScope_some hp, hq, pruneQ, UpdateScopeGo, hid]

theorem UpdateScope_eq_go (SS pos : Nat) (s : EngineState)
    (hp : s.current_pipeline_ = some pos) :
    UpdateScope SS s
      = UpdateScopeGo SS pos { s with delayq_ := pruneQ pos s.delayq_ }
          (pruneQ pos s.delayq_) := by
  show UpdateScopeGo SS (PruneScope s).2 (PruneScope s).1
      (PruneScope s).1.delayq_ = _
  rw [PruneScope_some hp]

theorem scope_no_swap (SS : Nat) (x : EngineState) (hq : x.delayq_ = [])
    (hc : x.current_sample_ < SS) : scope SS x = some x := by
  simp only [scope, UpdateScope_empty SS x hq, Option.map_some']
  rw [if_neg (Nat.not_le.mpr hc)]

theorem copyFrame_one (SS : Nat) (d : List Int) (i cur : Nat) (sc : Nat → Int)
    (hcur : cur < SS) :
    copyFrame SS 1 d i cur sc
      = (cur + 1, fun n => if n = cur then d.getD (i + 0) 0 else sc n) := by
  simp [copyFrame, copyFrameAux, hcur]

theorem extractLoop_single_mono (SS : Nat) (c : GstBuf) :
    ∀ fuel i cur sc,
      i + 1 < c.data.length →
      c.data.length - 1 - i ≤ fuel →
      cur + (c.data.length - 1 - i) ≤ SS →
      extractLoop SS 1 fuel [c] i cur sc
        = ([], cur + (c.data.length - 1 - i),
           fun m => if cur ≤ m ∧ m < cur + (c.data.length - 1 - i)
             then c.data.getD (i + (m - cur)) 0 else sc m) := by
  intro fuel
  induction fuel with
  | zero => intro i cur sc h1 h2 h3; omega
  | succ fuel ih =>
    intro i cur sc h1 h2 h3
    have hn : i < c.data.length := by omega
    have hcur : cur < SS := by omega
    rw [extractLoop, if_pos (⟨hcur, hn⟩ : cur < SS ∧ i < c.data.length),
      copyFrame_one SS c.data i cur sc hcur]
    by_cases hlast : c.data.length - 1 ≤ i + 1
    · rw [if_pos hlast, extractLoop_nil]
      have hK : c.data.length - 1 - i = 1 := by omega
      rw [hK]
      refine Prod.ext rfl (Prod.ext rfl ?_)
      funext m
      by_cases hm : m = cur
      · have hc2 : cur ≤ m ∧ m < cur + 1 := by omega
        simp [hm, hc2]
      · have hc2 : ¬ (cur ≤ m ∧ m < cur + 1) := by omega
        simp [hm, hc2]
    · rw [if_neg hlast,
        ih (i + 1) (cur + 1) _ (by omega) (by omega) (by omega)]
      refine Prod.ext rfl (Prod.ext ?_ ?_)
      · show cur + 1 + (c.data.length - 1 - (i + 1)) = cur + (c.data.length - 1 - i)
        omega
      · funext m
        by_cases hA : cur + 1 ≤ m ∧ m < cur + 1 + (c.data.length - 1 - (i + 1))
        · have hC : cur ≤ m ∧ m < cur + (c.data.length - 1 - i) := by omega
          have harg : i + 1 + (m - (cur + 1)) = i + (m - cur) := by omega
          simp [hA, hC, harg]
        · by_cases hm : m = cur
          · have hC : cur ≤ m ∧ m < cur + (c.data.length - 1 - i) := by omega
            simp [hA, hm, hC]
            rw [if_pos (by omega : i < c.data.length - 1)]
          · have hC : ¬ (cur ≤ m ∧ m < cur + (c.data.length - 1 - i)) := by omega
            simp [hA, hm, hC]

/-! ### Claim theorems and witnesses -/

/-- C2 (amended): the starting offset used by `UpdateScope` is
`(channel_count * (device_position - start_time)) / (duration / frame_count)`
— floored after the multiplication by the channel count.  It always dominates
the spec's formula `channel_count * floor((device_position - start_time) /
(duration / frame_count))` and agrees with it whenever
`duration / frame_count` divides `device_position - start_time`, as at
device position 40 on the spec's chunk A. -/
theorem C2_offset_code_formula (ch pos stime spf : Nat) (hspf : 0 < spf) :
    scopeOffsetSpec ch pos stime spf ≤ scopeOffset ch pos stime spf
  ∧ (spf ∣ (pos - stime) →
      scopeOffset ch pos stime spf = scopeOffsetSpec ch pos stime spf) := by
  constructor
  · unfold scopeOffset scopeOffsetSpec
    rw [Nat.le_div_iff_mul_le hspf, mul_assoc]
    exact Nat.mul_le_mul_left ch (Nat.div_mul_le_self _ _)
  · intro hd
    unfold scopeOffset scopeOffsetSpec
    exact Nat.mul_div_assoc ch hd

/-- C2 witness: at device position 40 on chunk A (`spf = 2`) both formulas
give offset 40. -/
theorem C2_offset_code_formula_witness :
    0 < 2 ∧ scopeOffsetSpec 2 40 0 2 ≤ scopeOffset 2 40 0 2
  ∧ scopeOffset 2 40 0 2 = scopeOffsetSpec 2 40 0 2
  ∧ scopeOffset 2 40 0 2 = 40 :=
  ⟨by decide, (C2_offset_code_formula 2 40 0 2 (by decide)).1,
   (C2_offset_code_formula 2 40 0 2 (by decide)).2 (by decide), by decide⟩

/-- C4 (amended): the `channels > 2` guard protects only the chunk at the
head of the pruned queue when `UpdateScope` begins: such a head chunk
contributes nothing (only pruning is applied to the state), and chunks with
more than two channels are still removed by the prune loop exactly like any
other chunk.  (The guard is not re-checked when refill advances to a later
chunk mid-call — see the counterexample.) -/
theorem C4_head_channel_guard (SS pos p2 : Nat) (s : EngineState) (c : GstBuf)
    (rest : List GstBuf)
    (hp : s.current_pipeline_ = some pos)
    (hq : pruneQ pos s.delayq_ = c :: rest)
    (hch : 2 < c.channels)
    (hp2 : c.stime + c.dur < p2) :
    UpdateScope SS s = some { s with delayq_ := c :: rest }
  ∧ pruneQ p2 (c :: rest) = pruneQ p2 rest := by
  have hgo := UpdateScope_eq_go SS pos s hp
  rw [hq] at hgo
  refine ⟨?_, by rw [pruneQ, if_pos hp2]⟩
  rw [hgo, UpdateScopeGo, if_pos hch]

/-- C4 witness: a 4-channel chunk at the head of the queue is left alone by
`UpdateScope` (pruning aside) and is removed by `pruneQ` at position 200. -/
theorem C4_head_channel_guard_witness :
    sW4.current_pipeline_ = some 50 ∧ pruneQ 50 sW4.delayq_ = [cW4]
  ∧ 2 < cW4.channels ∧ cW4.stime + cW4.dur < 200
  ∧ UpdateScope 8 sW4 = some { sW4 with delayq_ := [cW4] }
  ∧ pruneQ 200 [cW4] = pruneQ 200 [] :=
  ⟨rfl, by decide, by decide, by decide,
   (C4_head_channel_guard 8 50 200 sW4 cW4 [] rfl (by decide) (by decide)
     (by decide)).1,
   (C4_head_channel_guard 8 50 200 sW4 cW4 [] rfl (by decide) (by decide)
     (by decide)).2⟩

/-- C5 (amended): after `prune(p)` every remaining chunk satisfies
`end_time ≥ p`, provided the queued end times are non-decreasing (the prune
loop only ever inspects the head chunk, so this is what the code
guarantees). -/
theorem C5_prune_sorted_monotone (p : Nat) (q : List GstBuf)
    (hs : q.Pairwise fun a b => a.stime + a.dur ≤ b.stime + b.dur) :
    ∀ c ∈ pruneQ p q, p ≤ c.stime + c.dur := by
  induction q with
  | nil => intro c hc; simp [pruneQ] at hc
  | cons b rest ih =>
    intro c hc
    rw [pruneQ] at hc
    rcases List.pairwise_cons.mp hs with ⟨hb, hrest⟩
    by_cases hpop : b.stime + b.dur < p
    · rw [if_pos hpop] at hc
      exact ih hrest c hc
    · rw [if_neg hpop] at hc
      rcases List.mem_cons.mp hc with h | h
      · subst h; omega
      · have := hb c h; omega

/-- C5 witness: a queue with non-decreasing end times 100, 110 pruned at
position 80 keeps its second chunk, whose end time is at least 80. -/
theorem C5_prune_sorted_monotone_witness :
    qW5.Pairwise (fun a b => a.stime + a.dur ≤ b.stime + b.dur)
  ∧ cW5 ∈ pruneQ 80 qW5 ∧ 80 ≤ cW5.stime + cW5.dur :=
  ⟨by decide, by decide,
   C5_prune_sorted_monotone 80 qW5 (by decide) cW5 (by decide)⟩

/-- C6 (confirmed): starting from a cursor within bounds, `UpdateScope` never
writes to a build-buffer index at or beyond `SCOPESIZE` and keeps the cursor
at most `SCOPESIZE`; `scope` does too, and `PruneScope`, `ClearScopeQ`,
`stop` and `seek` leave the cursor unchanged — so `0 ≤ current_sample_ ≤
SCOPESIZE` is an invariant of every operation. -/
theorem C6_no_overflow (SS : Nat) (s : EngineState)
    (hcur : s.current_sample_ ≤ SS) :
    (∀ t, UpdateScope SS s = some t →
        t.current_sample_ ≤ SS
        ∧ ∀ m, SS ≤ m → t.current_scope_ m = s.current_scope_ m)
  ∧ (∀ u, scope SS s = some u → u.current_sample_ ≤ SS)
  ∧ (PruneScope s).1.current_sample_ = s.current_sample_
  ∧ (ClearScopeQ s).current_sample_ = s.current_sample_
  ∧ (stop s).current_sample_ = s.current_sample_
  ∧ ∀ ok, (seek ok s).current_sample_ = s.current_sample_ := by
  refine ⟨fun t ht => ⟨(UpdateScope_inv SS s t ht).2.2 hcur,
      (UpdateScope_inv SS s t ht).2.1⟩, fun u hu => ?_,
    (PruneScope_fields s).1, rfl, ?_, fun ok => ?_⟩
  · cases hT : UpdateScope SS s with
    | none => rw [scope, hT] at hu; cases hu
    | some t =>
      rw [scope, hT, Option.map_some'] at hu
      cases hu
      by_cases hge : SS ≤ t.current_sample_
      · rw [if_pos hge]
        exact Nat.zero_le SS
      · rw [if_neg hge]
        exact (UpdateScope_inv SS s t hT).2.2 hcur
  · cases hf : s.fadeout_enabled_ <;> simp [stop, ClearScopeQ, hf]
  · cases hp : s.current_pipeline_ <;> cases ok <;> simp [seek, ClearScopeQ, hp]

/-- C6 witness at a concrete state with cursor 2 and `SCOPESIZE = 4`. -/
theorem C6_no_overflow_witness :
    sW6.current_sample_ ≤ 4
  ∧ (PruneScope sW6).1.current_sample_ = sW6.current_sample_
  ∧ (ClearScopeQ sW6).current_sample_ = sW6.current_sample_
  ∧ (stop sW6).current_sample_ = sW6.current_sample_
  ∧ (seek false sW6).current_sample_ = sW6.current_sample_ :=
  ⟨by decide, (C6_no_overflow 4 sW6 (by decide)).2.2.1,
   (C6_no_overflow 4 sW6 (by decide)).2.2.2.1,
   (C6_no_overflow 4 sW6 (by decide)).2.2.2.2.1,
   (C6_no_overflow 4 sW6 (by decide)).2.2.2.2.2 false⟩

/-- C7 (confirmed): after the update pass, `scope` swaps the whole build
buffer into the ready buffer and resets the cursor exactly when the cursor
has reached `SCOPESIZE`; otherwise the ready buffer is exactly the one left
by the previous call (`UpdateScope` never touches `m_scope`), so a reader
only ever sees a complete fill or the initial contents. -/
theorem C7_swap_atomic (SS : Nat) (s t : EngineState)
    (h : UpdateScope SS s = some t) :
    (SS ≤ t.current_sample_ →
      scope SS s = some { t with
        m_scope := fun i => if i < SS then t.current_scope_ i else t.m_scope i
        current_sample_ := 0 })
  ∧ (t.current_sample_ < SS → scope SS s = some t)
  ∧ t.m_scope = s.m_scope := by
  refine ⟨fun hge => ?_, fun hlt => ?_, (UpdateScope_inv SS s t h).1⟩
  · simp only [scope, h, Option.map_some']
    rw [if_pos hge]
  · simp only [scope, h, Option.map_some']
    rw [if_neg (Nat.not_le.mpr hlt)]

/-- C7 witness: on a state whose build cursor already reached 4, `scope 4`
swaps the whole build buffer in and resets the cursor. -/
theorem C7_swap_atomic_witness :
    UpdateScope 4 sW7 = some sW7 ∧ 4 ≤ sW7.current_sample_
  ∧ scope 4 sW7 = some { sW7 with
      m_scope := fun i => if i < 4 then sW7.current_scope_ i else sW7.m_scope i
      current_sample_ := 0 } :=
  ⟨rfl, by decide, (C7_swap_atomic 4 sW7 sW7 rfl).1 (by decide)⟩

/-- C8 (amended): `seek` drains the chunk queue only when a pipeline exists
and the underlying pipeline seek succeeds (it is a no-op without a
pipeline), `stop` drains it only when fadeout is enabled, and neither
operation ever resets the build cursor. -/
theorem C8_clear_conditions (s : EngineState) (ok : Bool) :
    (seek ok s).current_sample_ = s.current_sample_
  ∧ (stop s).current_sample_ = s.current_sample_
  ∧ (s.current_pipeline_.isSome = true → (seek true s).delayq_ = [])
  ∧ (s.fadeout_enabled_ = true → (stop s).delayq_ = [])
  ∧ (s.current_pipeline_ = none → seek ok s = s) := by
  refine ⟨?_, ?_, fun hp => ?_, fun hf => ?_, fun hp => ?_⟩
  · cases hp : s.current_pipeline_ <;> cases ok <;> simp [seek, ClearScopeQ, hp]
  · cases hf : s.fadeout_enabled_ <;> simp [stop, ClearScopeQ, hf]
  · cases hp2 : s.current_pipeline_ with
    | none => rw [hp2] at hp; simp at hp
    | some p => simp [seek, ClearScopeQ, hp2]
  · simp [stop, ClearScopeQ, hf]
  · simp [seek, hp]

/-- C8 witness: with a pipeline present and fadeout enabled, a successful
seek and a stop drain the queue, and the cursor stays at 4. -/
theorem C8_clear_conditions_witness :
    sW8.current_pipeline_.isSome = true ∧ sW8.fadeout_enabled_ = true
  ∧ (seek true sW8).current_sample_ = sW8.current_sample_
  ∧ (stop sW8).current_sample_ = sW8.current_sample_
  ∧ (seek true sW8).delayq_ = [] ∧ (stop sW8).delayq_ = [] :=
  ⟨rfl, rfl, (C8_clear_conditions sW8 true).1, (C8_clear_conditions sW8 true).2.1,
   (C8_clear_conditions sW8 true).2.2.1 rfl,
   (C8_clear_conditions sW8 true).2.2.2.1 rfl⟩

/-- C9 (amended): when no extraction progress is possible — here, when the
chunk queue is empty — repeated `scope` calls return the same ready buffer:
a second call returns exactly the state of the first.  (With data queued, a
repeated call at an unchanged device position re-copies the same samples and
can complete another swap — see the counterexample.) -/
theorem C9_scope_idempotent_empty_queue (SS : Nat) (s u : EngineState)
    (hSS : 0 < SS) (hq : s.delayq_ = []) (h1 : scope SS s = some u) :
    scope SS u = some u := by
  have hus : UpdateScope SS s = some s := UpdateScope_empty SS s hq
  simp only [scope, hus, Option.map_some'] at h1
  cases h1
  by_cases hge : SS ≤ s.current_sample_
  · rw [if_pos hge]
    exact scope_no_swap SS _ hq hSS
  · rw [if_neg hge]
    exact scope_no_swap SS s hq (Nat.not_le.mp hge)

/-- C9 witness: with an empty queue, the second `scope` call returns the
state produced by the first. -/
theorem C9_scope_idempotent_empty_queue_witness :
    0 < 4 ∧ sW9.delayq_ = [] ∧ scope 4 sW9 = some uW9
  ∧ scope 4 uW9 = some uW9 :=
  ⟨by decide, rfl, rfl,
   C9_scope_idempotent_empty_queue 4 sW9 uW9 (by decide) rfl rfl⟩

/-- C10 (confirmed): with no current pipeline, `PruneScope` returns 0 and
leaves the whole state — queue and cursor included — untouched. -/
theorem C10_prune_no_pipeline (s : EngineState)
    (h : s.current_pipeline_ = none) : PruneScope s = (s, 0) :=
  PruneScope_none h

/-- C10 witness: a fully-elapsed chunk stays queued when `PruneScope` runs
without a pipeline. -/
theorem C10_prune_no_pipeline_witness :
    sW10.current_pipeline_ = none ∧ PruneScope sW10 = (sW10, 0) :=
  ⟨rfl, C10_prune_no_pipeline sW10 rfl⟩

/-- C3 (amended): samples are copied frame-by-frame from the starting offset,
advancing the cursor by the channel count per frame, but the head chunk is
popped as soon as the read index reaches `sample_count - 1` — one sample
early when exactly one sample remains.  For a single queued mono chunk of
`n ≥ 2` samples extracted from offset 0 with enough room, exactly its first
`n - 1` samples are copied to consecutive slots (the final sample is
dropped), the cursor advances by `n - 1`, and the chunk is popped; copying
would then continue from offset 0 of the next chunk. -/
theorem C3_mono_chunk_drops_last (SS pos : Nat) (s : EngineState) (c : GstBuf)
    (hp : s.current_pipeline_ = some pos)
    (hq : s.delayq_ = [c])
    (hch : c.channels = 1)
    (hn : 2 ≤ c.data.length)
    (hlo : c.stime < pos) (hhi : pos < c.stime + c.dur)
    (hoff : pos - c.stime < c.dur / c.data.length)
    (hroom : s.current_sample_ + c.data.length ≤ SS + 1) :
    UpdateScope SS s = some { s with
      delayq_ := []
      current_sample_ := s.current_sample_ + (c.data.length - 1)
      current_scope_ := fun m =>
        if s.current_sample_ ≤ m ∧ m < s.current_sample_ + (c.data.length - 1)
        then c.data.getD (m - s.current_sample_) 0 else s.current_scope_ m } := by
  have hprune : pruneQ pos s.delayq_ = [c] := by
    rw [hq, pruneQ, if_neg (by omega : ¬ c.stime + c.dur < pos)]
  have hspf0 : ¬ c.dur / c.data.length = 0 := by omega
  have hoffz : scopeOffset 1 pos c.stime (c.dur / c.data.length) = 0 := by
    unfold scopeOffset
    rw [one_mul]
    exact Nat.div_eq_of_lt hoff
  have hgo := UpdateScope_eq_go SS pos s hp
  rw [hprune] at hgo
  rw [hgo, UpdateScopeGo, hch]
  rw [if_neg (by omega : ¬ (2:Nat) < 1)]
  rw [if_neg (by omega : ¬ (pos ≤ c.stime ∨ c.stime + c.dur ≤ pos))]
  rw [if_neg (by omega : ¬ (1:Nat) = 0)]
  rw [Nat.div_one]
  rw [if_neg (by omega : ¬ c.data.length = 0)]
  rw [if_neg hspf0]
  rw [hoffz]
  rw [if_neg (by omega : ¬ c.data.length ≤ 0)]
  dsimp only [applyExtract]
  rw [extractLoop_single_mono SS c (SS + 1) 0 s.current_sample_
    s.current_scope_ (by omega) (by omega) (by omega)]
  simp only [applyExtract, Nat.sub_zero, Nat.zero_add]

/-- C3 witness: the single mono chunk `[5, 6]` extracted at position 1 with
`SCOPESIZE = 4` contributes exactly its first sample and is popped. -/
theorem C3_mono_chunk_drops_last_witness :
    sW3.current_pipeline_ = some 1 ∧ sW3.delayq_ = [cW3] ∧ cW3.channels = 1
  ∧ 2 ≤ cW3.data.length ∧ cW3.stime < 1 ∧ 1 < cW3.stime + cW3.dur
  ∧ 1 - cW3.stime < cW3.dur / cW3.data.length
  ∧ sW3.current_sample_ + cW3.data.length ≤ 4 + 1
  ∧ UpdateScope 4 sW3 = some { sW3 with
      delayq_ := []
      current_sample_ := sW3.current_sample_ + (cW3.data.length - 1)
      current_scope_ := fun m =>
        if sW3.current_sample_ ≤ m ∧ m < sW3.current_sample_ + (cW3.data.length - 1)
        then cW3.data.getD (m - sW3.current_sample_) 0
        else sW3.current_scope_ m } :=
  ⟨rfl, rfl, rfl, by decide, by decide, by decide, by decide, by decide,
   C3_mono_chunk_drops_last 4 1 sW3 cW3 rfl rfl rfl (by decide) (by decide)
     (by decide) (by decide) (by decide)⟩
